import Mathlib

/-!
# Verification of the demucs separation API (`demucs/api.py`)

A shallow embedding of the orchestration layer of `demucs/api.py`:
the `Separator` configuration state (`_set_attr` / `update_parameter`),
tensor separation (`separate_tensor`), the audio loading fallback chain
(`_load_audio`) and the output format dispatch (`save_audio`).

Modelling conventions:
* Waveforms are 2-D rational buffers `List (List ℚ)` (channels × samples);
  exact rationals stand for the float32 values, so "to floating-point
  tolerance" statements become exact equalities.
* The model and its application strategy (`apply_model` from `demucs.apply`)
  are external collaborators; the strategy is a function parameter, exactly
  as the spec treats `ModelApplicationStrategy` as an interface.
* `torch.Tensor.std()` takes a real square root, which is irrational for
  general rational variance.  The scalar `ref.std()` is therefore passed to
  `separateTensor` as an explicit parameter `s`; theorems pin it down with
  the predicate `IsStd`, i.e. `0 ≤ s` and `s * s` equals the unbiased
  variance (torch's default correction = 1) of the channel-averaged signal.
  No claim below depends on the numeric value of the square root itself.
* Python `dict` values are association lists whose insert keeps the position
  of an existing key and appends a fresh key, mirroring dict semantics.
-/

set_option autoImplicit false

namespace Demucs

/-- A waveform: list of channels, each channel a list of samples. -/
abbrev Waveform := List (List ℚ)

/-- A callback context: a Python dict from string keys to values
(values modelled as naturals; only `audio_length`, a frame count,
is ever injected by the code under verification). -/
abbrev CbArg := List (String × ℕ)

/-- A Python object as far as `update_parameter` can observe one:
whether `callable(x)` holds, plus an identity so that distinct callbacks
are distinguishable. -/
structure PyObj where
  isCallable : Bool
  oid : ℕ
  deriving DecidableEq

/-- The parts of the loaded model that `separate_tensor` reads:
`sources`, `audio_channels`, `samplerate`. -/
structure Model where
  sources : List String
  audio_channels : ℕ
  samplerate : ℕ
  deriving DecidableEq

/-! ## Python dict operations -/

/-- Python `d[k] = v`: replace in place if the key is present
(insertion order preserved), else append. -/
def dictSet {α : Type} (d : List (String × α)) (k : String) (v : α) :
    List (String × α) :=
  if k ∈ d.map Prod.fst then
    d.map (fun q => if q.1 = k then (k, v) else q)
  else
    d ++ [(k, v)]

/-- `dict(pairs)`: left-to-right insertion of each pair into an empty dict. -/
def dictOfPairs {α : Type} (ps : List (String × α)) : List (String × α) :=
  ps.foldl (fun d p => dictSet d p.1 p.2) []

/-- Python `d.get(k)` / `d[k]`: value of the first entry with key `k`. -/
def dictGet {α : Type} : List (String × α) → String → Option α
  | [], _ => none
  | p :: ps, k => if p.1 = k then some p.2 else dictGet ps k

/-! ## Basic tensor statistics -/

/-- Elementwise map over a 2-D tensor (broadcasted scalar arithmetic). -/
def mapWave (f : ℚ → ℚ) (w : Waveform) : Waveform :=
  w.map (List.map f)

/-- `wav.shape[1]`: the number of sample frames of a (channels, samples)
tensor. -/
def frames (w : Waveform) : ℕ :=
  (w.headD []).length

/-- `tensor.mean()` of a 1-D tensor. -/
def listMean (l : List ℚ) : ℚ :=
  l.sum / (l.length : ℚ)

/-- `tensor.std()` squared: the unbiased sample variance
(torch default correction = 1) of a 1-D tensor. -/
def listVar (l : List ℚ) : ℚ :=
  ((l.map (fun x => (x - listMean l) ^ 2)).sum) / ((l.length : ℚ) - 1)

/-- `wav.mean(0)`: the channel-averaged signal; entry `t` is the mean over
channels of sample `t`. -/
def channelMean (w : Waveform) : List ℚ :=
  (List.range (frames w)).map (fun t => listMean (w.map (fun ch => ch.getD t 0)))

/-- `s` is the value of `ref.std()`: nonnegative and squaring to the
unbiased variance of `ref`. -/
def IsStd (l : List ℚ) (s : ℚ) : Prop :=
  0 ≤ s ∧ s * s = listVar l

instance (l : List ℚ) (s : ℚ) : Decidable (IsStd l s) := by
  unfold IsStd; infer_instance

/-- Entry `(c, t)` of a 2-D tensor, defaulting to `0` out of range. -/
def entry (w : Waveform) (c t : ℕ) : ℚ :=
  (w.getD c []).getD t 0

/-! ## `Separator` configuration state

A Python attribute slot is `Option (Option α)`: the outer layer is
`hasattr` (is the attribute set at all — `none` only before
`Separator.__init__` has run `update_parameter`), the inner layer is the
stored value, `none` standing for Python `None`. -/

/-- The `Separator` object: the loaded model plus the nine configuration
attributes written by `update_parameter`
(`_device`, `_shifts`, `_overlap`, `_split`, `_segment`, `_jobs`,
`_progress`, `_callback`, `_callback_arg`). -/
structure Separator where
  model : Model
  device : Option (Option String)
  shifts : Option (Option ℤ)
  overlap : Option (Option ℚ)
  split : Option (Option Bool)
  segment : Option (Option ℤ)
  jobs : Option (Option ℤ)
  progress : Option (Option Bool)
  callback : Option (Option PyObj)
  callback_arg : Option (Option CbArg)
  deriving DecidableEq

/-- The keyword arguments of one `update_parameter` call
(`None` = "not supplied"). -/
structure UpdateArgs where
  device : Option String
  shifts : Option ℤ
  overlap : Option ℚ
  split : Option Bool
  segment : Option ℤ
  jobs : Option ℤ
  progress : Option Bool
  callback : Option PyObj
  callback_arg : Option CbArg
  deriving DecidableEq

/-- `Separator._set_attr`: if the supplied value is not `None`, store it;
otherwise, if the attribute has never been set, store `None`;
otherwise leave the attribute alone. -/
def setAttr {α : Type} (cur : Option (Option α)) (value : Option α) :
    Option (Option α) :=
  match value, cur with
  | some v, _ => some (some v)
  | none, none => some none
  | none, some old => some old

/-- The expression `callback if callable(callback) else None` in
`update_parameter`. -/
def callableFilter (cb : Option PyObj) : Option PyObj :=
  match cb with
  | some o => if o.isCallable then some o else none
  | none => none

/-- `Separator.update_parameter`: one `_set_attr` per configuration field,
in source order; the callback argument is first replaced by `None` unless
it is callable. -/
def updateParameter (sep : Separator) (args : UpdateArgs) : Separator :=
  Separator.mk sep.model
    (setAttr sep.device args.device)
    (setAttr sep.shifts args.shifts)
    (setAttr sep.overlap args.overlap)
    (setAttr sep.split args.split)
    (setAttr sep.segment args.segment)
    (setAttr sep.jobs args.jobs)
    (setAttr sep.progress args.progress)
    (setAttr sep.callback (callableFilter args.callback))
    (setAttr sep.callback_arg args.callback_arg)

/-- The object as `Separator.__init__` leaves it right before its trailing
`update_parameter` call: model loaded, no configuration attribute set. -/
def emptySeparator (model : Model) : Separator :=
  Separator.mk model none none none none none none none none none

/-- `Separator.__init__`: load the model, then apply the initial
configuration through `update_parameter`. -/
def constructSeparator (model : Model) (args : UpdateArgs) : Separator :=
  updateParameter (emptySeparator model) args

/-- All nine configuration attributes exist (true after construction,
since `__init__` always runs `update_parameter`). -/
def Constructed (sep : Separator) : Prop :=
  sep.device.isSome = true ∧ sep.shifts.isSome = true ∧
  sep.overlap.isSome = true ∧ sep.split.isSome = true ∧
  sep.segment.isSome = true ∧ sep.jobs.isSome = true ∧
  sep.progress.isSome = true ∧ sep.callback.isSome = true ∧
  sep.callback_arg.isSome = true

instance (sep : Separator) : Decidable (Constructed sep) := by
  unfold Constructed; infer_instance

/-- Following the spec's words for the partial-update rule: a field
supplied with a non-null value changes to the supplied value and every
other field retains its prior value. -/
def specMerge {α : Type} (prior : Option (Option α)) (supplied : Option α) :
    Option (Option α) :=
  match supplied with
  | some v => some (some v)
  | none => prior

/-- Following the spec's words for first construction: a supplied field
takes the supplied value and any still-unset field defaults to null. -/
def specInit {α : Type} (supplied : Option α) : Option (Option α) :=
  match supplied with
  | some v => some (some v)
  | none => some none

/-- The attribute slot holds a non-null value. -/
def attrNonNullB {α : Type} (a : Option (Option α)) : Bool :=
  match a with
  | some (some _) => true
  | _ => false

/-- The callback slot holds null (or is unset) or a callable. -/
def callbackOkB (sep : Separator) : Bool :=
  match sep.callback with
  | some (some o) => o.isCallable
  | _ => true

/-- A sequence of `update_parameter` calls, applied in order. -/
def applyUpdates (sep : Separator) (l : List UpdateArgs) : Separator :=
  l.foldl updateParameter sep

/-- One step from state `a` to state `b` never nulls a non-null field. -/
def NonNullPres (a b : Separator) : Prop :=
  (attrNonNullB a.device = true → attrNonNullB b.device = true)
  ∧ (attrNonNullB a.shifts = true → attrNonNullB b.shifts = true)
  ∧ (attrNonNullB a.overlap = true → attrNonNullB b.overlap = true)
  ∧ (attrNonNullB a.split = true → attrNonNullB b.split = true)
  ∧ (attrNonNullB a.segment = true → attrNonNullB b.segment = true)
  ∧ (attrNonNullB a.jobs = true → attrNonNullB b.jobs = true)
  ∧ (attrNonNullB a.progress = true → attrNonNullB b.progress = true)
  ∧ (attrNonNullB a.callback = true → attrNonNullB b.callback = true)
  ∧ (attrNonNullB a.callback_arg = true → attrNonNullB b.callback_arg = true)

/-! ## Separation (`separate_tensor`) -/

/-- The keyword arguments `separate_tensor` forwards to `apply_model`
(the callback context is passed separately, see `Strategy`). -/
structure ApplyConfig where
  segment : Option ℤ
  shifts : Option ℤ
  split : Option Bool
  overlap : Option ℚ
  device : Option String
  num_workers : Option ℤ
  callback : Option PyObj
  progress : Option Bool
  deriving DecidableEq

/-- `getattr` on a configuration slot (defined — `some _` outer layer —
whenever `separate_tensor` runs, since construction set every slot). -/
def attrVal {α : Type} (a : Option (Option α)) : Option α :=
  Option.join a

/-- The configuration `separate_tensor` reads off `self` and forwards to
`apply_model`. -/
def cfgOf (sep : Separator) : ApplyConfig :=
  ApplyConfig.mk (attrVal sep.segment) (attrVal sep.shifts)
    (attrVal sep.split) (attrVal sep.overlap) (attrVal sep.device)
    (attrVal sep.jobs) (attrVal sep.callback) (attrVal sep.progress)

/-- The external `apply_model` collaborator
(`ModelApplicationStrategy` of the spec): batched input waveforms,
configuration, callback context ↦ batched per-source outputs. -/
abbrev Strategy := List Waveform → ApplyConfig → CbArg → List (List Waveform)

/-- `(wav - ref.mean()) / ref.std()` with `m` the scalar mean and `s` the
scalar standard deviation. -/
def normalizeWav (m s : ℚ) (w : Waveform) : Waveform :=
  mapWave (fun x => (x - m) / s) w

/-- `out * ref.std() + ref.mean()` with the same two scalars. -/
def denormalizeWav (m s : ℚ) (w : Waveform) : Waveform :=
  mapWave (fun x => x * s + m) w

/-- Modelled from the spec: `_replace_dict` from `demucs.apply` (that file
is not under `src/`).  Per the spec, the caller-supplied callback context
is an open key-value bag merged with injected progress data, the injected
keys winning on collision; a missing bag starts from an empty dict. -/
def replaceDict (d : Option CbArg) (subs : List (String × ℕ)) : CbArg :=
  subs.foldl (fun acc p => dictSet acc p.1 p.2) (d.getD [])

/-- The callback context `separate_tensor` hands to `apply_model`:
`_replace_dict(self._callback_arg, ("audio_length", wav.shape[1]))`,
where `wav` is the (already normalized) local variable. -/
def separateCallbackCtx (sep : Separator) (s : ℚ) (wav : Waveform) : CbArg :=
  replaceDict (attrVal sep.callback_arg)
    [("audio_length", frames (normalizeWav (listMean (channelMean wav)) s wav))]

/-- The batched tensor `separate_tensor` obtains from `apply_model`
before denormalization: the strategy applied to the normalized input
(with the added leading batch dimension `wav[None]`), the current
configuration and the injected callback context. -/
def strategyRawOut (sep : Separator) (applyModel : Strategy) (s : ℚ)
    (wav : Waveform) : List (List Waveform) :=
  applyModel [normalizeWav (listMean (channelMean wav)) s wav] (cfgOf sep)
    (separateCallbackCtx sep s wav)

/-- `Separator.separate_tensor`.  `ref = wav.mean(0)` is the
channel-averaged signal; `wav` is reassigned to the normalized tensor;
`out` is the strategy output denormalized elementwise; the result pairs the
(reassigned!) `wav` with `dict(zip(self._model.sources, out[0]))`.
The scalar `s` stands for `ref.std()` (see the module docstring). -/
def separateTensor (sep : Separator) (applyModel : Strategy) (s : ℚ)
    (wav : Waveform) : Waveform × List (String × Waveform) :=
  let m := listMean (channelMean wav)
  let wav2 := normalizeWav m s wav
  let out := (strategyRawOut sep applyModel s wav).map
    (fun srcs => srcs.map (denormalizeWav m s))
  (wav2, dictOfPairs (sep.model.sources.zip (out.headD [])))

/-- The identity application strategy stub of the spec: each batch entry
becomes its own single-source output, untouched. -/
def identityStrategy : Strategy :=
  fun batch _ _ => batch.map (fun w => [w])

/-! ## Audio loading (`Separator._load_audio`) -/

/-- The two exceptions from the ffmpeg-backed `AudioFile(track).read(...)`
that `_load_audio` catches. -/
inductive FfmpegFailure
  | fileNotFound
  | calledProcessError
  deriving DecidableEq

/-- Outcome of the primary (ffmpeg container) decode backend. -/
inductive FfmpegResult
  | ok (w : Waveform)
  | failed (e : FfmpegFailure)
  deriving DecidableEq

/-- Outcome of the secondary backend `torchaudio.load` (on failure,
`err.args[0]` is the recorded message). -/
inductive TorchaudioResult
  | ok (w : Waveform) (sr : ℕ)
  | failed (msg : String)
  deriving DecidableEq

/-- The error text `_load_audio` records for each caught ffmpeg exception. -/
def ffmpegErrorText : FfmpegFailure → String
  | .fileNotFound => "FFmpeg is not installed."
  | .calledProcessError => "FFmpeg could not read the file."

/-- One line of the aggregated `LoadAudioError` message:
`"When trying to load using {backend}, got the following error: {error}"`. -/
def loadErrorLine (backend error : String) : String :=
  "When trying to load using " ++ backend ++ ", got the following error: "
    ++ error

/-- Python `"\n".join(lines)`. -/
def joinLines : List String → String
  | [] => ""
  | [x] => x
  | x :: xs => x ++ "\n" ++ joinLines xs

/-- `Separator._load_audio`, as a function of the two backend outcomes.
`convert` is the external `convert_audio(wav, sr, samplerate, channels)`
collaborator (from `demucs.audio`, outside the core) applied only to the
secondary backend's decode.  An `Except.error` is the raised
`LoadAudioError` (the spec's `AudioLoadError`) carrying its message. -/
def loadAudio (convert : Waveform → ℕ → ℕ → ℕ → Waveform)
    (samplerate audioChannels : ℕ) (ff : FfmpegResult)
    (tar : TorchaudioResult) : Except String Waveform :=
  let step1 : Option Waveform × List (String × String) :=
    match ff with
    | .ok w => (some w, [])
    | .failed e => (none, [("ffmpeg", ffmpegErrorText e)])
  let step2 : Option Waveform × List (String × String) :=
    match step1.1 with
    | some w => (some w, step1.2)
    | none =>
      match tar with
      | .ok w sr => (some (convert w sr samplerate audioChannels), step1.2)
      | .failed msg => (none, step1.2 ++ [("torchaudio", msg)])
  match step2.1 with
  | some w => .ok w
  | none => .error (joinLines (step2.2.map (fun p => loadErrorLine p.1 p.2)))

/-! ## Output encoding (`save_audio`) -/

/-- The clipping-prevention mode accepted by `save_audio`. -/
inductive ClipMode
  | rescale
  | clamp
  | tanh
  | passthrough
  deriving DecidableEq

/-- The encode call that `save_audio` dispatches to: the lossy mp3
encoder, or `torchaudio.save` for wav (with an explicit `encoding`) or
flac (bit depth only). -/
inductive SaveAction
  | encodeMp3 (path : String) (w : Waveform) (samplerate bitrate : ℕ)
  | taSaveWav (path : String) (w : Waveform) (samplerate : ℕ)
      (encoding : String) (bitsPerSample : ℕ)
  | taSaveFlac (path : String) (w : Waveform) (samplerate : ℕ)
      (bitsPerSample : ℕ)
  deriving DecidableEq

/-- `PurePosixPath(p).name`: the part after the last `/`. -/
def pathName (p : String) : String :=
  ((p.toList.reverse.takeWhile (fun c => c ≠ '/')).reverse).asString

/-- `PurePath(p).suffix`: `"." ++ ext` for the part after the last dot of
the name, empty when the name has no dot, a leading dot only (hidden
file), or a trailing dot. -/
def pathSuffix (p : String) : String :=
  let cs := (pathName p).toList
  if '.' ∈ cs then
    let ext := cs.reverse.takeWhile (fun c => c ≠ '.')
    if ext.length = 0 ∨ ext.length = cs.length - 1 then ""
    else String.mk ('.' :: ext.reverse)
  else ""

/-- Python `str.lower()` (ASCII, which covers the three extensions). -/
def strLower (s : String) : String :=
  String.mk (s.toList.map Char.toLower)

/-- `save_audio`.  `preventClip` is the external
`prevent_clip(wav, mode=clip)` collaborator from `demucs.audio`, applied
unconditionally before the dispatch.  The result is the single encode call
performed, or the raised `ValueError` (the spec's `UnsupportedFormatError`)
with no encode at all. -/
def save_audio (preventClip : Waveform → ClipMode → Waveform) (wav : Waveform)
    (path : String) (samplerate : ℕ) (bitrate : ℕ) (clip : ClipMode)
    (bitsPerSample : ℕ) (asFloat : Bool) : Except String SaveAction :=
  let w := preventClip wav clip
  let suffix := strLower (pathSuffix path)
  if suffix = ".mp3" then
    .ok (.encodeMp3 path w samplerate bitrate)
  else if suffix = ".wav" then
    if asFloat then .ok (.taSaveWav path w samplerate "PCM_F" 32)
    else .ok (.taSaveWav path w samplerate "PCM_S" bitsPerSample)
  else if suffix = ".flac" then
    .ok (.taSaveFlac path w samplerate bitsPerSample)
  else
    .error ("Invalid suffix for path: " ++ suffix)

/-- Which encoder a `save_audio` call reached (the dispatch decision,
forgetting the encoded payload). -/
inductive SaveKind
  | mp3
  | wavPCMS
  | wavPCMF
  | flac
  | unsupported
  deriving DecidableEq

/-- The dispatch decision of a finished `save_audio` call. -/
def saveKind : Except String SaveAction → SaveKind
  | .error _ => .unsupported
  | .ok (.encodeMp3 _ _ _ _) => .mp3
  | .ok (.taSaveWav _ _ _ enc _) => if enc = "PCM_F" then .wavPCMF else .wavPCMS
  | .ok (.taSaveFlac _ _ _ _) => .flac

/-! ## Concrete instances for evaluations and witnesses -/

/-- A one-source model for concrete instantiations. -/
def modelEx : Model := Model.mk ["vocals"] 2 44100

/-- The initial configuration of the worked example: the `Separator()`
defaults with `overlap=0.25`. -/
def initArgsEx : UpdateArgs :=
  UpdateArgs.mk (some "cpu") (some 1) (some (1 / 4)) (some true) none (some 0)
    (some false) none none

/-- A constructed separator with `overlap=0.25`. -/
def sepEx : Separator := constructSeparator modelEx initArgsEx

/-- The arguments of the worked `update_parameter` call: only
`overlap=0.5` supplied. -/
def overlapArgsEx : UpdateArgs :=
  UpdateArgs.mk none none (some (1 / 2)) none none none none none none

/-- A separator constructed with a `callback_arg` that already holds an
`audio_length` entry (to be overridden) and an unrelated entry `"x"`. -/
def sepCtxEx : Separator :=
  constructSeparator modelEx
    (UpdateArgs.mk none none none none none none none none
      (some [("audio_length", 999), ("x", 5)]))

end Demucs

namespace Demucs

/-! ## Helper lemmas: dict operations -/

theorem dictSet_of_not_mem {α : Type} {d : List (String × α)} {k : String}
    {v : α} (h : k ∉ d.map Prod.fst) : dictSet d k v = d ++ [(k, v)] := by
  simp [dictSet, h]

theorem mem_dictSet {α : Type} {d : List (String × α)} {k : String} {v : α}
    {p : String × α} (hp : p ∈ dictSet d k v) : p ∈ d ∨ p = (k, v) := by
  unfold dictSet at hp
  by_cases h : k ∈ d.map Prod.fst
  · rw [if_pos h] at hp
    rcases List.mem_map.mp hp with ⟨q, hq, rfl⟩
    by_cases hqk : q.1 = k
    · right; simp [hqk]
    · left; simpa [hqk] using hq
  · rw [if_neg h] at hp
    rcases List.mem_append.mp hp with h1 | h1
    · exact Or.inl h1
    · right; simpa using h1

theorem foldl_dictSet_subset {α : Type} (ps : List (String × α)) :
    ∀ (acc : List (String × α)) (p : String × α),
      p ∈ ps.foldl (fun d q => dictSet d q.1 q.2) acc → p ∈ acc ∨ p ∈ ps := by
  induction ps with
  | nil => intro acc p hp; exact Or.inl (by simpa using hp)
  | cons q qs ih =>
    intro acc p hp
    simp only [List.foldl_cons] at hp
    rcases ih _ _ hp with h1 | h1
    · rcases mem_dictSet h1 with h2 | h2
      · exact Or.inl h2
      · right; rw [h2]; exact List.mem_cons_self _ _
    · right; exact List.mem_cons_of_mem _ h1

theorem dictOfPairs_subset {α : Type} (ps : List (String × α))
    (p : String × α) (hp : p ∈ dictOfPairs ps) : p ∈ ps := by
  rcases foldl_dictSet_subset ps [] p hp with h | h
  · simp at h
  · exact h

theorem foldl_dictSet_nodup {α : Type} (ps : List (String × α)) :
    ∀ acc : List (String × α),
      (acc.map Prod.fst ++ ps.map Prod.fst).Nodup →
      ps.foldl (fun d q => dictSet d q.1 q.2) acc = acc ++ ps := by
  induction ps with
  | nil => intro acc _; simp
  | cons q qs ih =>
    intro acc h
    have hk : q.1 ∉ acc.map Prod.fst := by
      intro hmem
      rcases List.nodup_append.mp h with ⟨_, _, hdisj⟩
      exact hdisj hmem (by simp)
    have h' : ((acc ++ [q]).map Prod.fst ++ qs.map Prod.fst).Nodup := by
      simpa [List.map_append] using h
    simp only [List.foldl_cons]
    rw [dictSet_of_not_mem hk, ih (acc ++ [q]) h']
    simp

theorem dictOfPairs_eq_self {α : Type} (ps : List (String × α))
    (h : (ps.map Prod.fst).Nodup) : dictOfPairs ps = ps := by
  have := foldl_dictSet_nodup ps [] (by simpa using h)
  simpa [dictOfPairs] using this

theorem dictGet_replace {α : Type} (d : List (String × α)) (k : String)
    (v : α) (h : k ∈ d.map Prod.fst) :
    dictGet (d.map (fun q => if q.1 = k then (k, v) else q)) k = some v := by
  induction d with
  | nil => simp at h
  | cons q qs ih =>
    by_cases hq : q.1 = k
    · simp [dictGet, hq]
    · have h' : k ∈ qs.map Prod.fst := by
        rcases List.mem_map.mp h with ⟨r, hr, hrk⟩
        rcases List.mem_cons.mp hr with rfl | hr'
        · exact absurd hrk hq
        · exact List.mem_map.mpr ⟨r, hr', hrk⟩
      simpa [dictGet, hq] using ih h'

theorem dictGet_eq_none_of_not_mem {α : Type} (d : List (String × α))
    (k : String) (h : k ∉ d.map Prod.fst) : dictGet d k = none := by
  induction d with
  | nil => rfl
  | cons q qs ih =>
    have hq : q.1 ≠ k := fun hh => h (by simp [← hh])
    have h' : k ∉ qs.map Prod.fst := fun hm => h (by simp [hm])
    simpa [dictGet, hq] using ih h'

theorem dictGet_append_single {α : Type} (d : List (String × α)) (k : String)
    (v : α) (h : dictGet d k = none) : dictGet (d ++ [(k, v)]) k = some v := by
  induction d with
  | nil => simp [dictGet]
  | cons q qs ih =>
    by_cases hq : q.1 = k
    · simp [dictGet, hq] at h
    · rw [dictGet, if_neg hq] at h
      simpa [dictGet, hq] using ih h

theorem dictGet_dictSet_self {α : Type} (d : List (String × α)) (k : String)
    (v : α) : dictGet (dictSet d k v) k = some v := by
  unfold dictSet
  by_cases h : k ∈ d.map Prod.fst
  · rw [if_pos h]; exact dictGet_replace d k v h
  · rw [if_neg h]
    exact dictGet_append_single d k v (dictGet_eq_none_of_not_mem d k h)

theorem dictGet_replace_ne {α : Type} (d : List (String × α)) (k k' : String)
    (v : α) (hne : k' ≠ k) :
    dictGet (d.map (fun q => if q.1 = k then (k, v) else q)) k' = dictGet d k' := by
  induction d with
  | nil => rfl
  | cons q qs ih =>
    by_cases hq : q.1 = k
    · have hq' : q.1 ≠ k' := fun hh => hne (hq ▸ hh).symm
      simp [dictGet, hq, Ne.symm hne, hq', ih]
    · simp [dictGet, hq, ih]

theorem dictGet_dictSet_ne {α : Type} (d : List (String × α)) (k k' : String)
    (v : α) (hne : k' ≠ k) : dictGet (dictSet d k v) k' = dictGet d k' := by
  unfold dictSet
  by_cases h : k ∈ d.map Prod.fst
  · rw [if_pos h]; exact dictGet_replace_ne d k k' v hne
  · rw [if_neg h]
    induction d with
    | nil => simp [dictGet, Ne.symm hne]
    | cons q qs ih =>
      have h' : k ∉ qs.map Prod.fst := fun hm => h (by simp [hm])
      by_cases hq : q.1 = k' <;>
        simp [dictGet, hq, ih h']

/-! ## Helper lemmas: tensors and normalization -/

theorem mapWave_mapWave (f g : ℚ → ℚ) (w : Waveform) :
    mapWave g (mapWave f w) = mapWave (fun x => g (f x)) w := by
  simp [mapWave, List.map_map, Function.comp]

theorem mapWave_id_of {f : ℚ → ℚ} (h : ∀ x, f x = x) (w : Waveform) :
    mapWave f w = w := by
  simp only [mapWave]
  have : ∀ ch : List ℚ, ch.map f = ch := fun ch => List.map_id'' h ch
  exact List.map_id'' this w

theorem denormalize_normalize (m s : ℚ) (w : Waveform) (hs : s ≠ 0) :
    denormalizeWav m s (normalizeWav m s w) = w := by
  rw [normalizeWav, denormalizeWav, mapWave_mapWave]
  refine mapWave_id_of (fun x => ?_) w
  field_simp

theorem frames_mapWave (f : ℚ → ℚ) (w : Waveform) :
    frames (mapWave f w) = frames w := by
  cases w <;> simp [frames, mapWave]

theorem frames_normalizeWav (m s : ℚ) (w : Waveform) :
    frames (normalizeWav m s w) = frames w :=
  frames_mapWave _ w

theorem getD_map_of_lt {β γ : Type} (f : β → γ) (l : List β) (i : ℕ)
    (d : β) (d' : γ) (h : i < l.length) :
    (l.map f).getD i d' = f (l.getD i d) := by
  rw [List.getD_eq_getElem l d h,
    List.getD_eq_getElem (l.map f) d' (by simpa using h), List.getElem_map]

theorem entry_mapWave (f : ℚ → ℚ) (w : Waveform) (c t : ℕ)
    (hc : c < w.length) (ht : t < (w.getD c []).length) :
    entry (mapWave f w) c t = f (entry w c t) := by
  unfold entry mapWave
  rw [getD_map_of_lt (List.map f) w c [] [] hc, getD_map_of_lt f _ t 0 0 ht]

theorem headD_map_map {β : Type} (f : List β → List β)
    (raw : List (List (List β))) :
    ((raw.map (fun l => l.map f)).headD []) = (raw.headD []).map f := by
  cases raw <;> simp

/-! ## Claim theorems -/

/-- **C1** (code bug evaluation).  The claim (and the docstring of
`separate_tensor` itself, "first element is the original wave") says the
first component of the returned pair is the input waveform unchanged.  The
code reassigns the local `wav` to the normalized tensor and returns that:
at input `[[1, 2, 3]]` — whose channel-averaged signal has mean `2` and
standard deviation `1` (so `s = 1` is the true `ref.std()`) — the first
component evaluates to `[[-1, 0, 1]]`, not `[[1, 2, 3]]`. -/
theorem separate_tensor_returns_normalized_first_component :
    (separateTensor sepEx identityStrategy 1 [[1, 2, 3]]).1 = [[-1, 0, 1]]
    ∧ (separateTensor sepEx identityStrategy 1 [[1, 2, 3]]).1 ≠ [[1, 2, 3]]
    ∧ IsStd (channelMean [[1, 2, 3]]) 1 := by
  refine ⟨?_, ?_, ?_⟩
  · norm_num [separateTensor, normalizeWav, mapWave, channelMean, frames,
      listMean, List.range_succ]
  · norm_num [separateTensor, normalizeWav, mapWave, channelMean, frames,
      listMean, List.range_succ]
  · norm_num [IsStd, listVar, channelMean, frames, listMean, List.range_succ]

/-- **C3.**  Normalization round-trip: denormalizing (multiply by the
reference standard deviation, add the reference mean) the result of
normalizing (subtract the mean, divide by the standard deviation) returns
any waveform unchanged whenever the standard deviation is nonzero; and
through `separate_tensor` with the identity application strategy, every
separated stem equals the input waveform. -/
theorem normalization_roundtrip (m s : ℚ) (w : Waveform) (sep : Separator)
    (wav : Waveform) (p : String × Waveform) (hs : s ≠ 0)
    (hp : p ∈ (separateTensor sep identityStrategy s wav).2) :
    denormalizeWav m s (normalizeWav m s w) = w ∧ p.2 = wav := by
  refine ⟨denormalize_normalize m s w hs, ?_⟩
  have hsep : (separateTensor sep identityStrategy s wav).2
      = dictOfPairs (sep.model.sources.zip [wav]) := by
    unfold separateTensor strategyRawOut identityStrategy
    simp only [List.map_cons, List.map_nil, List.headD_cons]
    rw [denormalize_normalize _ _ _ hs]
  rw [hsep] at hp
  have h2 := dictOfPairs_subset _ _ hp
  rcases p with ⟨name, w'⟩
  have h3 := (List.of_mem_zip h2).2
  simpa using h3

/-- **C3 witness.**  The round-trip at `m = 2`, `s = 1`,
`w = wav = [[1, 2, 3]]`, with the stem produced by the identity strategy. -/
theorem normalization_roundtrip_witness :
    (1 : ℚ) ≠ 0
    ∧ ("vocals", ([[1, 2, 3]] : Waveform))
        ∈ (separateTensor sepEx identityStrategy 1 [[1, 2, 3]]).2
    ∧ (denormalizeWav 2 1 (normalizeWav 2 1 [[1, 2, 3]]) = [[1, 2, 3]]
        ∧ (("vocals", ([[1, 2, 3]] : Waveform)).2 = [[1, 2, 3]])) := by
  have hs : (1 : ℚ) ≠ 0 := one_ne_zero
  have hp : ("vocals", ([[1, 2, 3]] : Waveform))
      ∈ (separateTensor sepEx identityStrategy 1 [[1, 2, 3]]).2 := by
    norm_num [separateTensor, strategyRawOut, identityStrategy, normalizeWav,
      denormalizeWav, mapWave, channelMean, frames, listMean, List.range_succ,
      dictOfPairs, dictSet, sepEx, constructSeparator, modelEx, initArgsEx,
      emptySeparator, updateParameter, setAttr, callableFilter]
  exact ⟨hs, hp, normalization_roundtrip 2 1 [[1, 2, 3]] sepEx [[1, 2, 3]] _ hs hp⟩

/-- **C5.**  `_load_audio` raises, exactly when both backends fail, a
`LoadAudioError` (the spec's `AudioLoadError`) whose message joins with a
newline one labeled line per failed backend, ffmpeg (the container
backend) first and torchaudio second, each line carrying the backend name
and its failure text; when either backend succeeds the waveform is
returned and no error is raised. -/
theorem load_audio_backend_aggregation
    (convert : Waveform → ℕ → ℕ → ℕ → Waveform)
    (samplerate audioChannels : ℕ) (e : FfmpegFailure) (msg : String)
    (w : Waveform) (sr : ℕ) (tar : TorchaudioResult) :
    loadAudio convert samplerate audioChannels (.failed e) (.failed msg)
        = .error (loadErrorLine "ffmpeg" (ffmpegErrorText e) ++ "\n"
            ++ loadErrorLine "torchaudio" msg)
    ∧ loadAudio convert samplerate audioChannels (.ok w) tar = .ok w
    ∧ loadAudio convert samplerate audioChannels (.failed e) (.ok w sr)
        = .ok (convert w sr samplerate audioChannels) :=
  ⟨rfl, rfl, rfl⟩

/-- **C2.**  The normalization statistics of a `separate_tensor` call are
one scalar mean and one scalar standard deviation of the channel-averaged
signal `wav.mean(0)` — not per-channel statistics: every in-range entry of
the normalized tensor is `(x - mean) / std` with the same two scalars for
every channel, and every separated stem is an output of the application
strategy denormalized elementwise as `y * std + mean` with the same two
scalars. -/
theorem separate_tensor_normalization_statistics (sep : Separator)
    (applyModel : Strategy) (wav : Waveform) (s : ℚ) (c t : ℕ)
    (p : String × Waveform) (_hstd : IsStd (channelMean wav) s)
    (hc : c < wav.length) (ht : t < (wav.getD c []).length)
    (hp : p ∈ (separateTensor sep applyModel s wav).2) :
    entry (separateTensor sep applyModel s wav).1 c t
      = (entry wav c t - listMean (channelMean wav)) / s
    ∧ ∃ w0 ∈ (strategyRawOut sep applyModel s wav).headD [],
        p.2 = denormalizeWav (listMean (channelMean wav)) s w0 := by
  constructor
  · have h1 : (separateTensor sep applyModel s wav).1
        = normalizeWav (listMean (channelMean wav)) s wav := rfl
    rw [h1, normalizeWav, entry_mapWave _ wav c t hc ht]
  · have hsep0 : (separateTensor sep applyModel s wav).2
        = dictOfPairs (sep.model.sources.zip
            (((strategyRawOut sep applyModel s wav).map
              (fun l => l.map (denormalizeWav (listMean (channelMean wav))
                s))).headD [])) := rfl
    have hsep : (separateTensor sep applyModel s wav).2
        = dictOfPairs (sep.model.sources.zip
            (((strategyRawOut sep applyModel s wav).headD []).map
              (denormalizeWav (listMean (channelMean wav)) s))) := by
      rw [hsep0, headD_map_map]
    rw [hsep] at hp
    have h2 := dictOfPairs_subset _ _ hp
    rcases p with ⟨name, w'⟩
    have h3 := (List.of_mem_zip h2).2
    rcases List.mem_map.mp h3 with ⟨w0, hw0, hval⟩
    exact ⟨w0, hw0, hval.symm⟩

/-- **C2 witness.**  The statistics property at `wav = [[1, 2, 3]]`
(channel-averaged mean `2`, standard deviation `1`), entry `(0, 0)`, with
the identity strategy and the stem it produces. -/
theorem separate_tensor_normalization_statistics_witness :
    IsStd (channelMean [[1, 2, 3]]) 1
    ∧ 0 < ([[1, 2, 3]] : Waveform).length
    ∧ 0 < (([[1, 2, 3]] : Waveform).getD 0 []).length
    ∧ ("vocals", ([[1, 2, 3]] : Waveform))
        ∈ (separateTensor sepEx identityStrategy 1 [[1, 2, 3]]).2
    ∧ (entry (separateTensor sepEx identityStrategy 1 [[1, 2, 3]]).1 0 0
        = (entry [[1, 2, 3]] 0 0 - listMean (channelMean [[1, 2, 3]])) / 1
      ∧ ∃ w0 ∈ (strategyRawOut sepEx identityStrategy 1 [[1, 2, 3]]).headD [],
          ("vocals", ([[1, 2, 3]] : Waveform)).2
            = denormalizeWav (listMean (channelMean [[1, 2, 3]])) 1 w0) := by
  have hstd : IsStd (channelMean [[1, 2, 3]]) 1 := by
    norm_num [IsStd, listVar, channelMean, frames, listMean, List.range_succ]
  have hc : 0 < ([[1, 2, 3]] : Waveform).length := by norm_num
  have ht : 0 < (([[1, 2, 3]] : Waveform).getD 0 []).length := by norm_num
  have hp : ("vocals", ([[1, 2, 3]] : Waveform))
      ∈ (separateTensor sepEx identityStrategy 1 [[1, 2, 3]]).2 := by
    norm_num [separateTensor, strategyRawOut, identityStrategy, normalizeWav,
      denormalizeWav, mapWave, channelMean, frames, listMean, List.range_succ,
      dictOfPairs, dictSet, sepEx, constructSeparator, modelEx, initArgsEx,
      emptySeparator, updateParameter, setAttr, callableFilter]
  exact ⟨hstd, hc, ht, hp,
    separate_tensor_normalization_statistics sepEx identityStrategy
      [[1, 2, 3]] 1 0 0 _ hstd hc ht hp⟩

/-- **C8.**  The source mapping returned by `separate_tensor` has keys
exactly `self._model.sources` in declared order, and its `i`-th pair is
the `i`-th source name together with the `i`-th unbatched strategy output
(denormalized), provided the strategy honored its contract (one output
per source) and the declared source names are distinct. -/
theorem separate_tensor_source_mapping_order (sep : Separator)
    (applyModel : Strategy) (wav : Waveform) (s : ℚ) (i : ℕ)
    (hnd : sep.model.sources.Nodup)
    (hlen : ((strategyRawOut sep applyModel s wav).headD []).length
        = sep.model.sources.length)
    (hi : i < sep.model.sources.length) :
    (separateTensor sep applyModel s wav).2.map Prod.fst
        = sep.model.sources
    ∧ (separateTensor sep applyModel s wav).2.getD i ("", [])
        = (sep.model.sources.getD i "",
           denormalizeWav (listMean (channelMean wav)) s
             (((strategyRawOut sep applyModel s wav).headD []).getD i [])) := by
  have hsep0 : (separateTensor sep applyModel s wav).2
      = dictOfPairs (sep.model.sources.zip
          (((strategyRawOut sep applyModel s wav).map
            (fun l => l.map (denormalizeWav (listMean (channelMean wav))
              s))).headD [])) := rfl
  have hsep : (separateTensor sep applyModel s wav).2
      = dictOfPairs (sep.model.sources.zip
          (((strategyRawOut sep applyModel s wav).headD []).map
            (denormalizeWav (listMean (channelMean wav)) s))) := by
    rw [hsep0, headD_map_map]
  have hvlen : (((strategyRawOut sep applyModel s wav).headD []).map
      (denormalizeWav (listMean (channelMean wav)) s)).length
      = sep.model.sources.length := by
    rw [List.length_map, hlen]
  have hfst : (sep.model.sources.zip
      (((strategyRawOut sep applyModel s wav).headD []).map
        (denormalizeWav (listMean (channelMean wav)) s))).map Prod.fst
      = sep.model.sources :=
    List.map_fst_zip _ _ (le_of_eq hvlen.symm)
  have hdict : dictOfPairs (sep.model.sources.zip
      (((strategyRawOut sep applyModel s wav).headD []).map
        (denormalizeWav (listMean (channelMean wav)) s)))
      = sep.model.sources.zip
          (((strategyRawOut sep applyModel s wav).headD []).map
            (denormalizeWav (listMean (channelMean wav)) s)) := by
    apply dictOfPairs_eq_self
    rw [hfst]; exact hnd
  constructor
  · rw [hsep, hdict, hfst]
  · have hzl : i < (sep.model.sources.zip
        (((strategyRawOut sep applyModel s wav).headD []).map
          (denormalizeWav (listMean (channelMean wav)) s))).length := by
      rw [List.length_zip, hvlen, Nat.min_self]; exact hi
    rw [hsep, hdict, List.getD_eq_getElem _ _ hzl, List.getElem_zip,
      List.getD_eq_getElem _ _ hi,
      List.getD_eq_getElem _ _ (by rw [hlen]; exact hi), List.getElem_map]

/-- **C8 witness.**  The mapping order at the worked example: one source
`"vocals"`, identity strategy (one output per source), index `0`. -/
theorem separate_tensor_source_mapping_order_witness :
    sepEx.model.sources.Nodup
    ∧ ((strategyRawOut sepEx identityStrategy 1 [[1, 2, 3]]).headD []).length
        = sepEx.model.sources.length
    ∧ 0 < sepEx.model.sources.length
    ∧ ((separateTensor sepEx identityStrategy 1 [[1, 2, 3]]).2.map Prod.fst
        = sepEx.model.sources
      ∧ (separateTensor sepEx identityStrategy 1 [[1, 2, 3]]).2.getD 0 ("", [])
        = (sepEx.model.sources.getD 0 "",
           denormalizeWav (listMean (channelMean [[1, 2, 3]])) 1
             (((strategyRawOut sepEx identityStrategy 1 [[1, 2, 3]]).headD
                []).getD 0 []))) := by
  have hnd : sepEx.model.sources.Nodup := by decide
  have hlen : ((strategyRawOut sepEx identityStrategy 1 [[1, 2, 3]]).headD
      []).length = sepEx.model.sources.length := by
    norm_num [strategyRawOut, identityStrategy, sepEx, constructSeparator,
      modelEx, initArgsEx, emptySeparator, updateParameter, setAttr,
      callableFilter]
  have hi : 0 < sepEx.model.sources.length := by decide
  exact ⟨hnd, hlen, hi,
    separate_tensor_source_mapping_order sepEx identityStrategy [[1, 2, 3]]
      1 0 hnd hlen hi⟩

/-- **C9.**  The callback context `separate_tensor` hands to the
application strategy is the caller-supplied `callback_arg` with the key
`"audio_length"` set to the input's sample-frame count; the injected value
wins over any caller-supplied value under that key, every other key keeps
the caller's value, and `strategyRawOut` (the application inside
`separate_tensor`) passes exactly this context. -/
theorem separate_tensor_callback_context (sep : Separator) (s : ℚ)
    (wav : Waveform) (k : String) (applyModel : Strategy)
    (hk : k ≠ "audio_length") :
    dictGet (separateCallbackCtx sep s wav) "audio_length"
        = some (frames wav)
    ∧ dictGet (separateCallbackCtx sep s wav) k
        = dictGet ((attrVal sep.callback_arg).getD []) k
    ∧ strategyRawOut sep applyModel s wav
        = applyModel [normalizeWav (listMean (channelMean wav)) s wav]
            (cfgOf sep) (separateCallbackCtx sep s wav) := by
  refine ⟨?_, ?_, rfl⟩
  · unfold separateCallbackCtx replaceDict
    simp only [List.foldl_cons, List.foldl_nil]
    rw [dictGet_dictSet_self, frames_normalizeWav]
  · unfold separateCallbackCtx replaceDict
    simp only [List.foldl_cons, List.foldl_nil]
    exact dictGet_dictSet_ne _ _ _ _ hk

/-- **C9 witness.**  The context at a separator whose `callback_arg`
already maps `"audio_length"` to `999` (which loses against the injected
frame count) and `"x"` to `5` (which is preserved), at `wav = [[1, 2, 3]]`. -/
theorem separate_tensor_callback_context_witness :
    ("x" : String) ≠ "audio_length"
    ∧ (dictGet (separateCallbackCtx sepCtxEx 1 [[1, 2, 3]]) "audio_length"
        = some (frames [[1, 2, 3]])
      ∧ dictGet (separateCallbackCtx sepCtxEx 1 [[1, 2, 3]]) "x"
        = dictGet ((attrVal sepCtxEx.callback_arg).getD []) "x"
      ∧ strategyRawOut sepCtxEx identityStrategy 1 [[1, 2, 3]]
        = identityStrategy
            [normalizeWav (listMean (channelMean [[1, 2, 3]])) 1 [[1, 2, 3]]]
            (cfgOf sepCtxEx) (separateCallbackCtx sepCtxEx 1 [[1, 2, 3]])) := by
  have hk : ("x" : String) ≠ "audio_length" := by decide
  exact ⟨hk,
    separate_tensor_callback_context sepCtxEx 1 [[1, 2, 3]] "x"
      identityStrategy hk⟩

/-- **C6.**  Destination `.wav` with `as_float` forces a 32-bit
floating-point (`PCM_F`) encode regardless of the requested bit depth;
`.wav` without `as_float` is fixed-point `PCM_S` at the requested bit
depth; `.flac` encodes at the requested bit depth with no `as_float`
override (the `as_float` flag is simply not consulted there). -/
theorem save_audio_wav_float_override
    (preventClip : Waveform → ClipMode → Waveform) (wav : Waveform)
    (pWav pFlac : String) (samplerate bitrate bitsPerSample : ℕ)
    (clip : ClipMode) (asFloat : Bool)
    (hw : strLower (pathSuffix pWav) = ".wav")
    (hf : strLower (pathSuffix pFlac) = ".flac") :
    save_audio preventClip wav pWav samplerate bitrate clip bitsPerSample true
        = .ok (.taSaveWav pWav (preventClip wav clip) samplerate "PCM_F" 32)
    ∧ save_audio preventClip wav pWav samplerate bitrate clip bitsPerSample
          false
        = .ok (.taSaveWav pWav (preventClip wav clip) samplerate "PCM_S"
            bitsPerSample)
    ∧ save_audio preventClip wav pFlac samplerate bitrate clip bitsPerSample
          asFloat
        = .ok (.taSaveFlac pFlac (preventClip wav clip) samplerate
            bitsPerSample) := by
  refine ⟨?_, ?_, ?_⟩ <;> simp [save_audio, hw, hf]

/-- **C6 witness.**  `out.wav` with `as_float` and requested 16 bits
produces `PCM_F` at 32 bits; `out.flac` at 24 bits stays at 24 bits. -/
theorem save_audio_wav_float_override_witness :
    strLower (pathSuffix "out.wav") = ".wav"
    ∧ strLower (pathSuffix "out.flac") = ".flac"
    ∧ (save_audio (fun w _ => w) [[1]] "out.wav" 44100 320 ClipMode.rescale
          16 true
        = .ok (.taSaveWav "out.wav" [[1]] 44100 "PCM_F" 32)
      ∧ save_audio (fun w _ => w) [[1]] "out.wav" 44100 320 ClipMode.rescale
          16 false
        = .ok (.taSaveWav "out.wav" [[1]] 44100 "PCM_S" 16)
      ∧ save_audio (fun w _ => w) [[1]] "out.flac" 44100 320 ClipMode.rescale
          24 true
        = .ok (.taSaveFlac "out.flac" [[1]] 44100 24)) := by
  have hw : strLower (pathSuffix "out.wav") = ".wav" := by decide
  have hf : strLower (pathSuffix "out.flac") = ".flac" := by decide
  refine ⟨hw, hf, ?_⟩
  have h := save_audio_wav_float_override (fun w _ => w) [[1]] "out.wav"
    "out.flac" 44100 320 16 ClipMode.rescale true hw hf
  have h24 := save_audio_wav_float_override (fun w _ => w) [[1]] "out.wav"
    "out.flac" 44100 320 24 ClipMode.rescale true hw hf
  exact ⟨h.1, h.2.1, h24.2.2⟩

/-- **C7.**  `save_audio` dispatches on the lowercased destination
extension only (two paths with the same lowercased suffix reach the same
encoder), and any extension other than `.mp3`, `.wav`, `.flac` raises a
`ValueError` (the spec's `UnsupportedFormatError`) carrying the offending
suffix, with no encode action performed. -/
theorem save_audio_extension_dispatch
    (preventClip : Waveform → ClipMode → Waveform) (wav : Waveform)
    (p q other : String) (samplerate bitrate bitsPerSample : ℕ)
    (clip : ClipMode) (asFloat : Bool)
    (hpq : strLower (pathSuffix p) = strLower (pathSuffix q))
    (hother : strLower (pathSuffix other) ∉ [".mp3", ".wav", ".flac"]) :
    saveKind (save_audio preventClip wav p samplerate bitrate clip
        bitsPerSample asFloat)
      = saveKind (save_audio preventClip wav q samplerate bitrate clip
        bitsPerSample asFloat)
    ∧ save_audio preventClip wav other samplerate bitrate clip bitsPerSample
        asFloat
      = .error ("Invalid suffix for path: " ++ strLower (pathSuffix other)) := by
  constructor
  · unfold save_audio
    rw [hpq]
    by_cases h1 : strLower (pathSuffix q) = ".mp3"
    · simp [h1, saveKind]
    · by_cases h2 : strLower (pathSuffix q) = ".wav"
      · cases asFloat <;> simp [h1, h2, saveKind]
      · by_cases h3 : strLower (pathSuffix q) = ".flac" <;>
          simp [h1, h2, h3, saveKind]
  · simp only [List.mem_cons, List.not_mem_nil, or_false, not_or] at hother
    obtain ⟨h1, h2, h3⟩ := hother
    simp [save_audio, h1, h2, h3]

/-- **C7 witness.**  `A.WAV` and `a.wav` reach the same encoder
(case-insensitivity), and `x.ogg` is rejected with the `ValueError`. -/
theorem save_audio_extension_dispatch_witness :
    strLower (pathSuffix "A.WAV") = strLower (pathSuffix "a.wav")
    ∧ strLower (pathSuffix "x.ogg") ∉ ([".mp3", ".wav", ".flac"] : List String)
    ∧ (saveKind (save_audio (fun w _ => w) [[1]] "A.WAV" 44100 320
          ClipMode.clamp 16 false)
        = saveKind (save_audio (fun w _ => w) [[1]] "a.wav" 44100 320
          ClipMode.clamp 16 false)
      ∧ save_audio (fun w _ => w) [[1]] "x.ogg" 44100 320 ClipMode.clamp 16
          false
        = .error ("Invalid suffix for path: " ++ strLower (pathSuffix "x.ogg"))) := by
  have hpq : strLower (pathSuffix "A.WAV") = strLower (pathSuffix "a.wav") := by
    decide
  have hother : strLower (pathSuffix "x.ogg")
      ∉ ([".mp3", ".wav", ".flac"] : List String) := by decide
  exact ⟨hpq, hother,
    save_audio_extension_dispatch (fun w _ => w) [[1]] "A.WAV" "a.wav"
      "x.ogg" 44100 320 16 ClipMode.clamp false hpq hother⟩

/-! ## Helper lemmas: configuration state -/

theorem setAttr_eq_specMerge {α : Type} (cur : Option (Option α))
    (v : Option α) (h : cur.isSome = true) : setAttr cur v = specMerge cur v := by
  cases cur with
  | none => simp at h
  | some old => cases v <;> rfl

theorem setAttr_none_eq_specInit {α : Type} (v : Option α) :
    setAttr (none : Option (Option α)) v = specInit v := by
  cases v <;> rfl

theorem callableFilter_of_all (cb : Option PyObj)
    (h : cb.all PyObj.isCallable = true) : callableFilter cb = cb := by
  cases cb with
  | none => rfl
  | some o =>
    simp only [Option.all] at h
    simp [callableFilter, h]

/-- **C4.**  `update_parameter` implements exactly the spec's partial
update: fields supplied with a non-null value change to the supplied value
and every other field retains its prior value (`specMerge`); and at first
construction every still-unset field defaults to null instead of erroring
(`specInit`), so the constructed object always has all nine attributes.
Callback arguments are restricted to callables, the declared parameter
type. -/
theorem update_parameter_partial_update (sep : Separator) (args : UpdateArgs)
    (m : Model) (cargs : UpdateArgs) (hcon : Constructed sep)
    (hcb : args.callback.all PyObj.isCallable = true)
    (hccb : cargs.callback.all PyObj.isCallable = true) :
    updateParameter sep args
      = Separator.mk sep.model (specMerge sep.device args.device)
          (specMerge sep.shifts args.shifts)
          (specMerge sep.overlap args.overlap)
          (specMerge sep.split args.split)
          (specMerge sep.segment args.segment)
          (specMerge sep.jobs args.jobs)
          (specMerge sep.progress args.progress)
          (specMerge sep.callback args.callback)
          (specMerge sep.callback_arg args.callback_arg)
    ∧ constructSeparator m cargs
      = Separator.mk m (specInit cargs.device) (specInit cargs.shifts)
          (specInit cargs.overlap) (specInit cargs.split)
          (specInit cargs.segment) (specInit cargs.jobs)
          (specInit cargs.progress) (specInit cargs.callback)
          (specInit cargs.callback_arg) := by
  obtain ⟨h1, h2, h3, h4, h5, h6, h7, h8, h9⟩ := hcon
  constructor
  · unfold updateParameter
    rw [callableFilter_of_all _ hcb, setAttr_eq_specMerge _ _ h1,
      setAttr_eq_specMerge _ _ h2, setAttr_eq_specMerge _ _ h3,
      setAttr_eq_specMerge _ _ h4, setAttr_eq_specMerge _ _ h5,
      setAttr_eq_specMerge _ _ h6, setAttr_eq_specMerge _ _ h7,
      setAttr_eq_specMerge _ _ h8, setAttr_eq_specMerge _ _ h9]
  · unfold constructSeparator updateParameter emptySeparator
    rw [callableFilter_of_all _ hccb]
    simp only [setAttr_none_eq_specInit]

/-- **C4 witness.**  Construction with `overlap=0.25` (and the
`Separator()` defaults) followed by `update_parameter(overlap=0.5)`:
the update changes only `overlap`, and construction gave every unsupplied
field (`segment`, `callback`, `callback_arg`) the null default. -/
theorem update_parameter_partial_update_witness :
    Constructed sepEx
    ∧ overlapArgsEx.callback.all PyObj.isCallable = true
    ∧ initArgsEx.callback.all PyObj.isCallable = true
    ∧ (updateParameter sepEx overlapArgsEx
        = Separator.mk sepEx.model
            (specMerge sepEx.device overlapArgsEx.device)
            (specMerge sepEx.shifts overlapArgsEx.shifts)
            (specMerge sepEx.overlap overlapArgsEx.overlap)
            (specMerge sepEx.split overlapArgsEx.split)
            (specMerge sepEx.segment overlapArgsEx.segment)
            (specMerge sepEx.jobs overlapArgsEx.jobs)
            (specMerge sepEx.progress overlapArgsEx.progress)
            (specMerge sepEx.callback overlapArgsEx.callback)
            (specMerge sepEx.callback_arg overlapArgsEx.callback_arg)
      ∧ constructSeparator modelEx initArgsEx
        = Separator.mk modelEx (specInit initArgsEx.device)
            (specInit initArgsEx.shifts) (specInit initArgsEx.overlap)
            (specInit initArgsEx.split) (specInit initArgsEx.segment)
            (specInit initArgsEx.jobs) (specInit initArgsEx.progress)
            (specInit initArgsEx.callback)
            (specInit initArgsEx.callback_arg)) := by
  have hcon : Constructed sepEx := by decide
  have hcb : overlapArgsEx.callback.all PyObj.isCallable = true := rfl
  have hccb : initArgsEx.callback.all PyObj.isCallable = true := rfl
  exact ⟨hcon, hcb, hccb,
    update_parameter_partial_update sepEx overlapArgsEx modelEx initArgsEx
      hcon hcb hccb⟩

/-! ## Configuration invariants (C10) -/

theorem setAttr_nonNull {α : Type} (cur : Option (Option α)) (v : Option α)
    (h : attrNonNullB cur = true) : attrNonNullB (setAttr cur v) = true := by
  cases cur with
  | none => simp [attrNonNullB] at h
  | some o =>
    cases o with
    | none => simp [attrNonNullB] at h
    | some x => cases v <;> rfl

theorem nonNullPres_update (sep : Separator) (args : UpdateArgs) :
    NonNullPres sep (updateParameter sep args) := by
  refine ⟨?_, ?_, ?_, ?_, ?_, ?_, ?_, ?_, ?_⟩ <;>
    exact fun h => setAttr_nonNull _ _ h

theorem nonNullPres_applyUpdates (l : List UpdateArgs) :
    ∀ sep : Separator, NonNullPres sep (applyUpdates sep l) := by
  induction l with
  | nil =>
    intro sep
    refine ⟨?_, ?_, ?_, ?_, ?_, ?_, ?_, ?_, ?_⟩ <;> exact id
  | cons a as ih =>
    intro sep
    obtain ⟨p1, p2, p3, p4, p5, p6, p7, p8, p9⟩ := nonNullPres_update sep a
    obtain ⟨q1, q2, q3, q4, q5, q6, q7, q8, q9⟩ := ih (updateParameter sep a)
    exact ⟨fun h => q1 (p1 h), fun h => q2 (p2 h), fun h => q3 (p3 h),
      fun h => q4 (p4 h), fun h => q5 (p5 h), fun h => q6 (p6 h),
      fun h => q7 (p7 h), fun h => q8 (p8 h), fun h => q9 (p9 h)⟩

theorem callbackOk_update (sep : Separator) (args : UpdateArgs)
    (h : callbackOkB sep = true) :
    callbackOkB (updateParameter sep args) = true := by
  have hnew : (updateParameter sep args).callback
      = setAttr sep.callback (callableFilter args.callback) := rfl
  cases hc : args.callback with
  | none =>
    cases hsc : sep.callback with
    | none => simp [callbackOkB, hnew, hc, hsc, callableFilter, setAttr]
    | some old =>
      rw [callbackOkB, hnew, hc, hsc]
      simpa [callbackOkB, hsc, callableFilter, setAttr] using h
  | some o =>
    by_cases hco : o.isCallable = true
    · simp [callbackOkB, hnew, hc, callableFilter, hco, setAttr]
    · cases hsc : sep.callback with
      | none =>
        simp [callbackOkB, hnew, hc, hsc, callableFilter, hco, setAttr]
      | some old =>
        rw [callbackOkB, hnew, hc, hsc]
        simpa [callbackOkB, hsc, callableFilter, hco, setAttr] using h

theorem callbackOk_applyUpdates (l : List UpdateArgs) :
    ∀ sep : Separator, callbackOkB sep = true →
      callbackOkB (applyUpdates sep l) = true := by
  induction l with
  | nil => intro sep h; exact h
  | cons a as ih =>
    intro sep h
    exact ih (updateParameter sep a) (callbackOk_update sep a h)

/-- **C10.**  Over any sequence of `update_parameter` calls: a field
holding a non-null value never returns to null; the callback slot always
holds null or a callable, including straight out of construction with an
arbitrary (even non-callable) callback argument; and supplying a
non-callable, non-null callback is treated as null and leaves the prior
callback untouched. -/
theorem separator_config_invariants (sep : Separator) (l : List UpdateArgs)
    (args : UpdateArgs) (o : PyObj) (m : Model) (cargs : UpdateArgs)
    (hok : callbackOkB sep = true) (hsome : sep.callback.isSome = true)
    (ho : args.callback = some o) (hno : o.isCallable = false) :
    NonNullPres sep (applyUpdates sep l)
    ∧ callbackOkB (applyUpdates sep l) = true
    ∧ callbackOkB (constructSeparator m cargs) = true
    ∧ (updateParameter sep args).callback = sep.callback := by
  refine ⟨nonNullPres_applyUpdates l sep, callbackOk_applyUpdates l sep hok,
    ?_, ?_⟩
  · unfold constructSeparator
    apply callbackOk_update
    rfl
  · have hnew : (updateParameter sep args).callback
        = setAttr sep.callback (callableFilter args.callback) := rfl
    rw [hnew, ho]
    cases hsc : sep.callback with
    | none => rw [hsc] at hsome; simp at hsome
    | some old => simp [callableFilter, hno, setAttr]

/-- **C10 witness.**  Starting from the constructed example separator
(callback slot null): a length-one update sequence, and an update that
passes the non-callable object `PyObj.mk false 7` as callback. -/
theorem separator_config_invariants_witness :
    callbackOkB sepEx = true
    ∧ sepEx.callback.isSome = true
    ∧ (UpdateArgs.mk none none none none none none none
          (some (PyObj.mk false 7)) none).callback = some (PyObj.mk false 7)
    ∧ (PyObj.mk false 7).isCallable = false
    ∧ (NonNullPres sepEx (applyUpdates sepEx [overlapArgsEx])
      ∧ callbackOkB (applyUpdates sepEx [overlapArgsEx]) = true
      ∧ callbackOkB (constructSeparator modelEx initArgsEx) = true
      ∧ (updateParameter sepEx
            (UpdateArgs.mk none none none none none none none
              (some (PyObj.mk false 7)) none)).callback = sepEx.callback) := by
  have hok : callbackOkB sepEx = true := by decide
  have hsome : sepEx.callback.isSome = true := by decide
  exact ⟨hok, hsome, rfl, rfl,
    separator_config_invariants sepEx [overlapArgsEx]
      (UpdateArgs.mk none none none none none none none
        (some (PyObj.mk false 7)) none) (PyObj.mk false 7) modelEx initArgsEx
      hok hsome rfl rfl⟩


end Demucs
